import Mathlib

/-!
# Verification of the `dvd` package (lsdvd XML metadata parser)

Shallow embedding of `src/dvd/parser.go`. Go byte slices are modelled as
`List Char` (all substitution patterns and markup delimiters are ASCII, so
byte-level and character-level processing coincide on well-formed input);
Go `float64` fields are modelled as `ℚ`; Go `int` as `Int`; fallible
functions return `Except String`; nil-able pointer results are `Option`.
-/

namespace Dvdxml

/-- Go `[]byte`, modelled as a list of characters. -/
abbrev Bytes := List Char

/-- Fuel-bounded scanner behind `replaceAll`; every step consumes at least
one input character, so fuel equal to the input length always suffices. -/
def replaceAllFuel (pat rep : Bytes) : Nat → Bytes → Bytes
  | 0, s => s
  | _ + 1, [] => []
  | fuel + 1, c :: s =>
    if pat.isPrefixOf (c :: s) then
      rep ++ replaceAllFuel pat rep fuel (s.drop (pat.length - 1))
    else
      c :: replaceAllFuel pat rep fuel s

/-- Go `bytes.ReplaceAll(s, pat, rep)`: replaces the non-overlapping
occurrences of `pat` left to right; the replacement text is never rescanned
(the scan continues right after the replaced occurrence). -/
def replaceAll (pat rep s : Bytes) : Bytes :=
  replaceAllFuel pat rep s.length s

/-- First substitution of `ParseBytes`: `Pan&Scan` → `Pan&amp;Scan`. -/
def fixPanScan (data : Bytes) : Bytes :=
  replaceAll ("Pan&Scan".toList) ("Pan&amp;Scan".toList) data

/-- Second substitution of `ParseBytes`: `&Letterbox` → `&amp;Letterbox`. -/
def fixLetterbox (data : Bytes) : Bytes :=
  replaceAll ("&Letterbox".toList) ("&amp;Letterbox".toList) data

/-- The entity-repair pre-pass of `ParseBytes`, in source order. -/
def repairEntities (data : Bytes) : Bytes :=
  fixLetterbox (fixPanScan data)

/-! ## Data model (structs of `parser.go`) -/

/-- Struct `Palette`: color palette information. -/
structure Palette where
  Colors : List String
deriving DecidableEq

/-- Struct `AudioStream`: an audio track. -/
structure AudioStream where
  Index : Int
  LanguageCode : String
  Language : String
  Format : String
  Frequency : Int
  Quantization : String
  Channels : Int
  APMode : Int
  Content : String
  StreamID : String
deriving DecidableEq

/-- Struct `SubtitleStream`: a subtitle track. -/
structure SubtitleStream where
  Index : Int
  LanguageCode : String
  Language : String
  Content : String
  StreamID : String
deriving DecidableEq

/-- Struct `Chapter`: a chapter within a track. -/
structure Chapter where
  Index : Int
  Length : ℚ
  StartCell : Int
deriving DecidableEq

/-- Struct `Cell`: a cell within a track. -/
structure Cell where
  Index : Int
  Length : ℚ
deriving DecidableEq

/-- Struct `Track`: a DVD track. -/
structure Track where
  Index : Int
  Length : ℚ
  VTSID : String
  VTS : Int
  TTN : Int
  FPS : ℚ
  Format : String
  Aspect : String
  Width : Int
  Height : Int
  DF : String
  Palette : Palette
  Angles : Int
  AudioStreams : List AudioStream
  SubtitleStreams : List SubtitleStream
  Chapters : List Chapter
  Cells : List Cell
deriving DecidableEq

/-- Struct `DVD`: the complete DVD metadata structure. -/
structure DVD where
  Device : String
  Title : String
  VMGID : String
  ProviderID : String
  Tracks : List Track
  LongestTrack : Int
deriving DecidableEq

/-! ## Query layer -/

/-- Method `GetLongestTrack`: returns the track at 1-based position `LongestTrack`,
or `none` when that declared index is out of bounds. -/
def GetLongestTrack (d : DVD) : Option Track :=
  if 0 < d.LongestTrack ∧ d.LongestTrack ≤ (d.Tracks.length : Int) then
    d.Tracks.get? (d.LongestTrack - 1).toNat
  else
    none

/-- Method `GetTrackByIndex`: first track whose `Index` field equals `index`, else `none`. -/
def GetTrackByIndex (d : DVD) (index : Int) : Option Track :=
  d.Tracks.find? (fun t => t.Index == index)

/-- Method `GetTotalDuration`: sum of all track lengths in seconds. -/
def GetTotalDuration (d : DVD) : ℚ :=
  d.Tracks.foldl (fun total track => total + track.Length) 0

/-- Struct `ContentMatch`: a track or chapter matching the duration criteria.
The Go `Track *Track` pointer is never nil in any produced match, so it is
modelled as a plain `Track`; `Chapter *Chapter` is `Option Chapter`. -/
structure ContentMatch where
  Type' : String
  Track : Track
  Chapter : Option Chapter
  Duration : ℚ
deriving DecidableEq

/-- Loop body of `FindContentAroundDuration` for one track: the track-level
window test, falling back to the per-chapter window tests. -/
def emitForTrack (targetSeconds toleranceSeconds : ℚ) (track : Track) : List ContentMatch :=
  if track.Length ≥ targetSeconds - toleranceSeconds ∧
      track.Length ≤ targetSeconds + toleranceSeconds then
    [{ Type' := "track", Track := track, Chapter := none, Duration := track.Length }]
  else
    track.Chapters.filterMap fun chapter =>
      if chapter.Length ≥ targetSeconds - toleranceSeconds ∧
          chapter.Length ≤ targetSeconds + toleranceSeconds then
        some { Type' := "chapter", Track := track, Chapter := some chapter,
               Duration := chapter.Length }
      else
        none

/-- Method `FindContentAroundDuration`: tracks and chapters with duration around
the target, appended per track in document order. -/
def FindContentAroundDuration (d : DVD) (targetMinutes toleranceMinutes : ℚ) :
    List ContentMatch :=
  let targetSeconds := targetMinutes * 60
  let toleranceSeconds := toleranceMinutes * 60
  (d.Tracks.map (emitForTrack targetSeconds toleranceSeconds)).flatten

/-- Method `FindFortyMinuteContent`: convenience wrapper at 40 ± 5 minutes. -/
def FindFortyMinuteContent (d : DVD) : List ContentMatch :=
  FindContentAroundDuration d 40 5

/-! ## Structural XML decode

`ParseBytes` delegates structural decoding to the Go standard library
(`encoding/xml.Unmarshal`), which is not part of this repository's sources.
The decoder below is therefore modelled from the spec (§4.1): the repaired
text must be well-formed markup whose root element is `lsdvd`; nested
elements map to the entities by tag name; repeated child tags form ordered
sequences; leaf tags convert textually to strings, integers or rationals;
unknown tags are ignored and missing tags leave the zero value; any
non-well-formed input (mismatched tags, bare `&` not starting a valid
entity reference) is an error, and no partial value is produced. Prologs,
attributes and comments do not occur in the modelled dialect fragment. -/

/-- Modelled from the spec: a node of the parsed markup tree (character data
with entities decoded, or an element with its children in document order). -/
inductive XNode where
  | text (s : Bytes)
  | elem (tag : Bytes) (children : List XNode)

/-- Characters allowed in a tag name. -/
def isNameChar (c : Char) : Bool := c.isAlphanum || c == '_' || c == '-'

/-- Modelled from the spec: decode one entity reference (input starts just
after `&`); a bare `&` that starts no valid reference is a format error. -/
def parseEntityRef (s : Bytes) : Except String (Char × Bytes) :=
  if ("amp;".toList).isPrefixOf s then .ok ('&', s.drop 4)
  else if ("lt;".toList).isPrefixOf s then .ok ('<', s.drop 3)
  else if ("gt;".toList).isPrefixOf s then .ok ('>', s.drop 3)
  else if ("quot;".toList).isPrefixOf s then .ok ('"', s.drop 5)
  else if ("apos;".toList).isPrefixOf s then .ok (Char.ofNat 39, s.drop 5)
  else .error "invalid entity reference"

/-- Modelled from the spec: character data up to the next `<` (or end of
input), decoding entity references. -/
def parseText : Nat → Bytes → Except String (Bytes × Bytes)
  | _, [] => .ok ([], [])
  | 0, _ :: _ => .error "fuel exhausted"
  | fuel + 1, c :: rest =>
    if c == '<' then .ok ([], c :: rest)
    else if c == '&' then
      match parseEntityRef rest with
      | .error e => .error e
      | .ok (ch, rest2) =>
        match parseText fuel rest2 with
        | .error e => .error e
        | .ok (t, rest3) => .ok (ch :: t, rest3)
    else
      match parseText fuel rest with
      | .error e => .error e
      | .ok (t, rest2) => .ok (c :: t, rest2)

/-- Modelled from the spec: a sequence of sibling nodes; stops before a
closing tag, which the enclosing element consumes, checking that its name
matches (well-formedness). Fuel bounds the recursion; every recursive call
consumes input, so fuel beyond the input length never runs out. -/
def parseNodes : Nat → Bytes → Except String (List XNode × Bytes)
  | _, [] => .ok ([], [])
  | 0, _ :: _ => .error "fuel exhausted"
  | fuel + 1, c :: rest =>
    if c == '<' then
      match rest with
      | '/' :: _ => .ok ([], c :: rest)
      | _ =>
        let tag := rest.takeWhile isNameChar
        let rest1 := rest.dropWhile isNameChar
        if tag.isEmpty then .error "syntax error: malformed start tag"
        else
          match rest1 with
          | '>' :: rest2 =>
            match parseNodes fuel rest2 with
            | .error e => .error e
            | .ok (children, rest3) =>
              match rest3 with
              | '<' :: '/' :: rest4 =>
                if tag.isPrefixOf rest4 then
                  match rest4.drop tag.length with
                  | '>' :: rest5 =>
                    match parseNodes fuel rest5 with
                    | .error e => .error e
                    | .ok (siblings, rest6) =>
                      .ok (XNode.elem tag children :: siblings, rest6)
                  | _ => .error "syntax error: malformed end tag"
                else .error "syntax error: mismatched end tag"
              | _ => .error "syntax error: missing end tag"
          | _ => .error "syntax error: malformed start tag"
    else
      match parseText fuel (c :: rest) with
      | .error e => .error e
      | .ok (t, rest2) =>
        match parseNodes fuel rest2 with
        | .error e => .error e
        | .ok (siblings, rest3) => .ok (XNode.text t :: siblings, rest3)

/-- Concatenated character data directly inside an element. -/
def textOf : List XNode → Bytes
  | [] => []
  | XNode.text t :: rest => t ++ textOf rest
  | XNode.elem _ _ :: rest => textOf rest

/-- Whitespace-only character data between elements. -/
def isWhitespaceNode : XNode → Bool
  | XNode.text t => t.all (fun c => c.isWhitespace)
  | XNode.elem _ _ => false

/-- Modelled from the spec: textual conversion of a decimal digit string. -/
def parseNatDigits (s : Bytes) : Except String Nat :=
  if s.isEmpty then .error "strconv: invalid syntax"
  else if s.all (fun c => c.isDigit) then
    .ok (s.foldl (fun a c => 10 * a + (c.toNat - 48)) 0)
  else .error "strconv: invalid syntax"

/-- Modelled from the spec: textual conversion to an integer field. -/
def parseIntContent (s : Bytes) : Except String Int :=
  match s with
  | '-' :: rest => (parseNatDigits rest).map (fun n => -(n : Int))
  | _ => (parseNatDigits s).map (fun n => (n : Int))

/-- Decimal forms used by the dialect: digits with an optional fraction. -/
def parseUnsignedRat (s : Bytes) : Except String ℚ :=
  match parseNatDigits (s.takeWhile (fun c => c.isDigit)) with
  | .error e => .error e
  | .ok n =>
    match s.dropWhile (fun c => c.isDigit) with
    | [] => .ok (n : ℚ)
    | '.' :: frac =>
      match parseNatDigits frac with
      | .error e => .error e
      | .ok f => .ok ((n : ℚ) + (f : ℚ) / ((10 : ℚ) ^ frac.length))
    | _ => .error "strconv: invalid syntax"

/-- Modelled from the spec: textual conversion to a floating-point field
(modelled as ℚ). -/
def parseRatContent (s : Bytes) : Except String ℚ :=
  match s with
  | '-' :: rest => (parseUnsignedRat rest).map (fun q => -q)
  | _ => parseUnsignedRat s

/-- Modelled from the spec: decode a `chapter` element's children. -/
def decodeChapter (children : List XNode) : Except String Chapter :=
  children.foldlM
    (fun ch n =>
      match n with
      | XNode.elem tag cs =>
        if tag == "ix".toList then
          (parseIntContent (textOf cs)).map (fun v => { ch with Index := v })
        else if tag == "length".toList then
          (parseRatContent (textOf cs)).map (fun v => { ch with Length := v })
        else if tag == "startcell".toList then
          (parseIntContent (textOf cs)).map (fun v => { ch with StartCell := v })
        else .ok ch
      | XNode.text _ => .ok ch)
    { Index := 0, Length := 0, StartCell := 0 }

/-- Modelled from the spec: decode a `cell` element's children. -/
def decodeCell (children : List XNode) : Except String Cell :=
  children.foldlM
    (fun cl n =>
      match n with
      | XNode.elem tag cs =>
        if tag == "ix".toList then
          (parseIntContent (textOf cs)).map (fun v => { cl with Index := v })
        else if tag == "length".toList then
          (parseRatContent (textOf cs)).map (fun v => { cl with Length := v })
        else .ok cl
      | XNode.text _ => .ok cl)
    { Index := 0, Length := 0 }

/-- Modelled from the spec: decode an `audio` element's children. -/
def decodeAudio (children : List XNode) : Except String AudioStream :=
  children.foldlM
    (fun a n =>
      match n with
      | XNode.elem tag cs =>
        if tag == "ix".toList then
          (parseIntContent (textOf cs)).map (fun v => { a with Index := v })
        else if tag == "langcode".toList then
          .ok { a with LanguageCode := String.mk (textOf cs) }
        else if tag == "language".toList then
          .ok { a with Language := String.mk (textOf cs) }
        else if tag == "format".toList then
          .ok { a with Format := String.mk (textOf cs) }
        else if tag == "frequency".toList then
          (parseIntContent (textOf cs)).map (fun v => { a with Frequency := v })
        else if tag == "quantization".toList then
          .ok { a with Quantization := String.mk (textOf cs) }
        else if tag == "channels".toList then
          (parseIntContent (textOf cs)).map (fun v => { a with Channels := v })
        else if tag == "ap_mode".toList then
          (parseIntContent (textOf cs)).map (fun v => { a with APMode := v })
        else if tag == "content".toList then
          .ok { a with Content := String.mk (textOf cs) }
        else if tag == "streamid".toList then
          .ok { a with StreamID := String.mk (textOf cs) }
        else .ok a
      | XNode.text _ => .ok a)
    { Index := 0, LanguageCode := "", Language := "", Format := "",
      Frequency := 0, Quantization := "", Channels := 0, APMode := 0,
      Content := "", StreamID := "" }

/-- Modelled from the spec: decode a `subp` element's children. -/
def decodeSubp (children : List XNode) : Except String SubtitleStream :=
  children.foldlM
    (fun a n =>
      match n with
      | XNode.elem tag cs =>
        if tag == "ix".toList then
          (parseIntContent (textOf cs)).map (fun v => { a with Index := v })
        else if tag == "langcode".toList then
          .ok { a with LanguageCode := String.mk (textOf cs) }
        else if tag == "language".toList then
          .ok { a with Language := String.mk (textOf cs) }
        else if tag == "content".toList then
          .ok { a with Content := String.mk (textOf cs) }
        else if tag == "streamid".toList then
          .ok { a with StreamID := String.mk (textOf cs) }
        else .ok a
      | XNode.text _ => .ok a)
    { Index := 0, LanguageCode := "", Language := "", Content := "", StreamID := "" }

/-- Modelled from the spec: decode a `palette` element (repeated `color`). -/
def decodePalette (children : List XNode) : Palette :=
  { Colors := children.filterMap (fun n =>
      match n with
      | XNode.elem tag cs =>
        if tag == "color".toList then some (String.mk (textOf cs)) else none
      | XNode.text _ => none) }

/-- Modelled from the spec: decode a `track` element's children. -/
def decodeTrack (children : List XNode) : Except String Track :=
  children.foldlM
    (fun t n =>
      match n with
      | XNode.elem tag cs =>
        if tag == "ix".toList then
          (parseIntContent (textOf cs)).map (fun v => { t with Index := v })
        else if tag == "length".toList then
          (parseRatContent (textOf cs)).map (fun v => { t with Length := v })
        else if tag == "vts_id".toList then
          .ok { t with VTSID := String.mk (textOf cs) }
        else if tag == "vts".toList then
          (parseIntContent (textOf cs)).map (fun v => { t with VTS := v })
        else if tag == "ttn".toList then
          (parseIntContent (textOf cs)).map (fun v => { t with TTN := v })
        else if tag == "fps".toList then
          (parseRatContent (textOf cs)).map (fun v => { t with FPS := v })
        else if tag == "format".toList then
          .ok { t with Format := String.mk (textOf cs) }
        else if tag == "aspect".toList then
          .ok { t with Aspect := String.mk (textOf cs) }
        else if tag == "width".toList then
          (parseIntContent (textOf cs)).map (fun v => { t with Width := v })
        else if tag == "height".toList then
          (parseIntContent (textOf cs)).map (fun v => { t with Height := v })
        else if tag == "df".toList then
          .ok { t with DF := String.mk (textOf cs) }
        else if tag == "palette".toList then
          .ok { t with Palette := decodePalette cs }
        else if tag == "angles".toList then
          (parseIntContent (textOf cs)).map (fun v => { t with Angles := v })
        else if tag == "audio".toList then
          (decodeAudio cs).map (fun v => { t with AudioStreams := t.AudioStreams ++ [v] })
        else if tag == "subp".toList then
          (decodeSubp cs).map (fun v =>
            { t with SubtitleStreams := t.SubtitleStreams ++ [v] })
        else if tag == "chapter".toList then
          (decodeChapter cs).map (fun v => { t with Chapters := t.Chapters ++ [v] })
        else if tag == "cell".toList then
          (decodeCell cs).map (fun v => { t with Cells := t.Cells ++ [v] })
        else .ok t
      | XNode.text _ => .ok t)
    { Index := 0, Length := 0, VTSID := "", VTS := 0, TTN := 0, FPS := 0,
      Format := "", Aspect := "", Width := 0, Height := 0, DF := "",
      Palette := { Colors := [] }, Angles := 0, AudioStreams := [],
      SubtitleStreams := [], Chapters := [], Cells := [] }

/-- Modelled from the spec: decode the `lsdvd` root element's children. -/
def decodeDVD (children : List XNode) : Except String DVD :=
  children.foldlM
    (fun d n =>
      match n with
      | XNode.elem tag cs =>
        if tag == "device".toList then
          .ok { d with Device := String.mk (textOf cs) }
        else if tag == "title".toList then
          .ok { d with Title := String.mk (textOf cs) }
        else if tag == "vmg_id".toList then
          .ok { d with VMGID := String.mk (textOf cs) }
        else if tag == "provider_id".toList then
          .ok { d with ProviderID := String.mk (textOf cs) }
        else if tag == "track".toList then
          (decodeTrack cs).map (fun t => { d with Tracks := d.Tracks ++ [t] })
        else if tag == "longest_track".toList then
          (parseIntContent (textOf cs)).map (fun v => { d with LongestTrack := v })
        else .ok d
      | XNode.text _ => .ok d)
    { Device := "", Title := "", VMGID := "", ProviderID := "",
      Tracks := [], LongestTrack := 0 }

/-- Modelled from the spec: `xml.Unmarshal` — the repaired text must parse as
well-formed markup and contain a decodable root element `lsdvd`; otherwise a
format error results, and no partial value is ever produced. -/
def xmlUnmarshal (data : Bytes) : Except String DVD :=
  match parseNodes (2 * data.length + 2) data with
  | .error e => .error e
  | .ok (nodes, rest) =>
    if rest.isEmpty then
      match nodes.filter (fun n => !isWhitespaceNode n) with
      | [XNode.elem tag children] =>
        if tag == "lsdvd".toList then decodeDVD children
        else .error "expected element type lsdvd"
      | _ => .error "no root element"
    else .error "syntax error: unexpected content"

/-- Function `ParseBytes`: repair the two malformed-entity patterns, then decode;
a decode failure is wrapped with context and yields no DVD value. -/
def ParseBytes (data : Bytes) : Except String DVD :=
  match xmlUnmarshal (repairEntities data) with
  | .ok dvd => .ok dvd
  | .error e => .error ("failed to parse XML: " ++ e)

/-- The malformed document of the C3 scenario. -/
def panScanDoc : Bytes :=
  "<lsdvd><track><df>Pan&Scan</df></track></lsdvd>".toList

/-- A document with mismatched tags (C6 scenario). -/
def mismatchedDoc : Bytes :=
  "<lsdvd><track></lsdvd></track>".toList

/-- Sample DVD fixtures used by concrete witnesses. -/
def sampleChapter (ix : Int) (len : ℚ) : Chapter :=
  { Index := ix, Length := len, StartCell := 1 }

def sampleTrack (ix : Int) (len : ℚ) (chapters : List Chapter) : Track :=
  { Index := ix, Length := len, VTSID := "", VTS := 0, TTN := 0, FPS := 0,
    Format := "", Aspect := "", Width := 0, Height := 0, DF := "",
    Palette := { Colors := [] }, Angles := 0, AudioStreams := [],
    SubtitleStreams := [], Chapters := chapters, Cells := [] }

def sampleDVD (tracks : List Track) (longest : Int) : DVD :=
  { Device := "", Title := "", VMGID := "", ProviderID := "",
    Tracks := tracks, LongestTrack := longest }

/-! ## Basic query-layer lemmas -/

theorem findContent_eq_join (d : DVD) (tm tol : ℚ) :
    FindContentAroundDuration d tm tol
      = (d.Tracks.map (emitForTrack (tm * 60) (tol * 60))).flatten := rfl

theorem emitForTrack_track_mem {ts tols : ℚ} {track : Track} {m : ContentMatch}
    (hm : m ∈ emitForTrack ts tols track) : m.Track = track := by
  unfold emitForTrack at hm
  split at hm
  · simp only [List.mem_singleton] at hm
    subst hm; rfl
  · rcases List.mem_filterMap.mp hm with ⟨c, _, hc⟩
    split at hc
    · cases hc; rfl
    · cases hc

/-- Lemma: `find?` returns the first element satisfying the predicate: the list splits
around the hit, with every earlier element failing the predicate. -/
theorem find?_some_decomp {α : Type} {p : α → Bool} {l : List α} {t : α} :
    l.find? p = some t →
      p t = true ∧ ∃ l1 l2, l = l1 ++ t :: l2 ∧ ∀ u ∈ l1, p u = false := by
  induction l with
  | nil => intro h; cases h
  | cons a l ih =>
    intro h
    cases hpa : p a with
    | true =>
      rw [List.find?_cons_of_pos _ hpa] at h
      cases h
      exact ⟨hpa, [], l, rfl, by simp⟩
    | false =>
      rw [List.find?_cons_of_neg _ (by simp [hpa])] at h
      obtain ⟨hp, l1, l2, heq, hall⟩ := ih h
      refine ⟨hp, a :: l1, l2, by rw [heq]; rfl, ?_⟩
      intro u hu
      rcases List.mem_cons.mp hu with rfl | hu
      · exact hpa
      · exact hall u hu

/-- Claim C4: `GetLongestTrack` returns `none` exactly when the declared 1-based
`LongestTrack` index is out of bounds (≤ 0 or > track count), and otherwise
returns exactly the track stored at that 1-based position of the sequence. -/
theorem GetLongestTrack_spec (d : DVD) :
    (GetLongestTrack d = none ↔
      d.LongestTrack ≤ 0 ∨ (d.Tracks.length : Int) < d.LongestTrack)
    ∧ ∀ t : Track, (GetLongestTrack d = some t ↔
        0 < d.LongestTrack ∧ d.LongestTrack ≤ (d.Tracks.length : Int) ∧
        d.Tracks.get? (d.LongestTrack - 1).toNat = some t) := by
  unfold GetLongestTrack
  by_cases h : 0 < d.LongestTrack ∧ d.LongestTrack ≤ (d.Tracks.length : Int)
  · obtain ⟨h1, h2⟩ := h
    rw [if_pos ⟨h1, h2⟩]
    constructor
    · rw [List.get?_eq_none]
      omega
    · intro t
      exact ⟨fun hg => ⟨h1, h2, hg⟩, fun hg => hg.2.2⟩
  · rw [if_neg h]
    constructor
    · simp only [true_iff]
      omega
    · intro t
      constructor
      · intro hg; cases hg
      · rintro ⟨h1, h2, -⟩
        exact absurd ⟨h1, h2⟩ h

/-- Witness for C4: on a two-track disc declaring track 2 longest, the second
stored track is returned. -/
theorem GetLongestTrack_spec_witness :
    GetLongestTrack (sampleDVD [sampleTrack 1 100 [], sampleTrack 2 200 []] 2)
      = some (sampleTrack 2 200 []) :=
  ((GetLongestTrack_spec (sampleDVD [sampleTrack 1 100 [], sampleTrack 2 200 []] 2)).2
    (sampleTrack 2 200 [])).mpr ⟨by decide, by decide, rfl⟩

/-- Claim C5: `GetTrackByIndex i` returns `none` exactly when no track's `Index`
field equals `i`, and any returned track has `Index = i` and is the first
such track in sequence order. -/
theorem GetTrackByIndex_spec (d : DVD) (i : Int) :
    (GetTrackByIndex d i = none ↔ ∀ t ∈ d.Tracks, t.Index ≠ i)
    ∧ ∀ t : Track, GetTrackByIndex d i = some t →
        t.Index = i ∧ ∃ l1 l2, d.Tracks = l1 ++ t :: l2 ∧ ∀ u ∈ l1, u.Index ≠ i := by
  constructor
  · unfold GetTrackByIndex
    rw [List.find?_eq_none]
    constructor
    · intro h t ht
      have := h t ht
      simpa using this
    · intro h t ht
      simpa using h t ht
  · intro t ht
    obtain ⟨hp, l1, l2, heq, hall⟩ := find?_some_decomp ht
    refine ⟨by simpa using hp, l1, l2, heq, ?_⟩
    intro u hu
    simpa using hall u hu

/-- Witness for C5: the lone track has field `Index = 5`, so looking up index 1 —
although 1 is within the bounds of the one-element sequence — returns `none`. -/
theorem GetTrackByIndex_spec_witness :
    GetTrackByIndex (sampleDVD [sampleTrack 5 100 []] 1) 1 = none :=
  (GetTrackByIndex_spec (sampleDVD [sampleTrack 5 100 []] 1) 1).1.mpr (by decide)

/-- Claim C7: with strictly negative tolerance the window is inverted (its low
bound exceeds its high bound), so `FindContentAroundDuration` returns no
matches at all. -/
theorem findContent_negative_tolerance (d : DVD) (tm tol : ℚ) (h : tol < 0) :
    FindContentAroundDuration d tm tol = []
    ∧ tm * 60 + tol * 60 < tm * 60 - tol * 60 := by
  have hw : tm * 60 + tol * 60 < tm * 60 - tol * 60 := by nlinarith
  refine ⟨?_, hw⟩
  have hemit : ∀ track, emitForTrack (tm * 60) (tol * 60) track = [] := by
    intro track
    unfold emitForTrack
    rw [if_neg]
    · rw [List.filterMap_eq_nil_iff]
      intro c _
      rw [if_neg]
      rintro ⟨hlo, hhi⟩
      linarith
    · rintro ⟨hlo, hhi⟩
      linarith
  rw [findContent_eq_join]
  rw [List.flatten_eq_nil_iff]
  intro xs hxs
  rcases List.mem_map.mp hxs with ⟨track, -, rfl⟩
  exact hemit track

/-- Membership in the match list comes from some track's emission. -/
theorem mem_findContent {d : DVD} {tm tol : ℚ} {m : ContentMatch} :
    m ∈ FindContentAroundDuration d tm tol ↔
      ∃ track ∈ d.Tracks, m ∈ emitForTrack (tm * 60) (tol * 60) track := by
  rw [findContent_eq_join, List.mem_flatten]
  constructor
  · rintro ⟨xs, hxs, hmx⟩
    rcases List.mem_map.mp hxs with ⟨track, htrack, rfl⟩
    exact ⟨track, htrack, hmx⟩
  · rintro ⟨track, htrack, hmx⟩
    exact ⟨emitForTrack (tm * 60) (tol * 60) track,
      List.mem_map_of_mem _ htrack, hmx⟩

/-- Claim C1: a track whose `Length` lies in the inclusive window produces the
track-level match; it occurs once per occurrence of the track in the
sequence, and no other match (in particular no chapter-level match) for that
track exists, even when some of its chapters also lie in the window. -/
theorem findContent_track_precedence (d : DVD) (tm tol : ℚ) (track : Track)
    (hmem : track ∈ d.Tracks)
    (hlo : tm * 60 - tol * 60 ≤ track.Length)
    (hhi : track.Length ≤ tm * 60 + tol * 60) :
    ({ Type' := "track", Track := track, Chapter := none,
       Duration := track.Length } : ContentMatch) ∈ FindContentAroundDuration d tm tol
    ∧ ((FindContentAroundDuration d tm tol).filter
        (fun m => m.Track == track)).length = d.Tracks.count track
    ∧ ∀ m ∈ FindContentAroundDuration d tm tol, m.Track = track →
        m = { Type' := "track", Track := track, Chapter := none,
              Duration := track.Length } := by
  have hemit : emitForTrack (tm * 60) (tol * 60) track
      = [{ Type' := "track", Track := track, Chapter := none,
           Duration := track.Length }] := by
    unfold emitForTrack
    rw [if_pos ⟨hlo, hhi⟩]
  refine ⟨?_, ?_, ?_⟩
  · exact mem_findContent.mpr ⟨track, hmem, by rw [hemit]; exact List.mem_singleton.mpr rfl⟩
  · rw [findContent_eq_join]
    clear hmem
    induction d.Tracks with
    | nil => simp
    | cons a l ih =>
      rw [List.map_cons, List.flatten_cons, List.filter_append, List.length_append, ih]
      by_cases hat : a = track
      · subst hat
        rw [hemit]
        simp [List.count_cons]
        omega
      · have hnone : (emitForTrack (tm * 60) (tol * 60) a).filter
            (fun m => m.Track == track) = [] := by
          rw [List.filter_eq_nil_iff]
          intro m hm
          have hma := emitForTrack_track_mem hm
          simp [hma, hat]
        rw [hnone]
        simp [List.count_cons, hat]
  · intro m hm hmtrack
    rcases mem_findContent.mp hm with ⟨t, -, hmx⟩
    have hmt := emitForTrack_track_mem hmx
    have htt : t = track := by rw [← hmt, hmtrack]
    rw [htt, hemit] at hmx
    simpa using hmx

/-- Witness for C1: a 40-minute track with a chapter that also fits the window
still yields the track-level match. -/
theorem findContent_track_precedence_witness :
    ({ Type' := "track", Track := sampleTrack 1 2400 [sampleChapter 1 2390],
       Chapter := none, Duration := 2400 } : ContentMatch)
      ∈ FindContentAroundDuration
          (sampleDVD [sampleTrack 1 2400 [sampleChapter 1 2390]] 1) 40 5 :=
  (findContent_track_precedence
    (sampleDVD [sampleTrack 1 2400 [sampleChapter 1 2390]] 1) 40 5
    (sampleTrack 1 2400 [sampleChapter 1 2390])
    (by simp [sampleDVD]) (by norm_num [sampleTrack]) (by norm_num [sampleTrack])).1

/-- Lemma: `filterMap` of a guarded `some` is `map` after `filter`. -/
theorem filterMap_guard_eq_map_filter {α β : Type} (p : α → Prop) [DecidablePred p]
    (g : α → β) (l : List α) :
    l.filterMap (fun a => if p a then some (g a) else none)
      = (l.filter (fun a => decide (p a))).map g := by
  induction l with
  | nil => rfl
  | cons a l ih =>
    by_cases h : p a
    · simp [List.filterMap_cons, List.filter_cons, h, ih]
    · simp [List.filterMap_cons, List.filter_cons, h, ih]

/-- Claim C2: a track whose `Length` misses the window contributes exactly the
chapter-level matches of its in-window chapters, in chapter document order,
and the whole result is the per-track emissions concatenated in track
document order. -/
theorem findContent_chapter_matches (d : DVD) (tm tol : ℚ) (track : Track)
    (_hmem : track ∈ d.Tracks)
    (hout : ¬(track.Length ≥ tm * 60 - tol * 60 ∧ track.Length ≤ tm * 60 + tol * 60)) :
    emitForTrack (tm * 60) (tol * 60) track
      = (track.Chapters.filter (fun c =>
            decide (c.Length ≥ tm * 60 - tol * 60 ∧ c.Length ≤ tm * 60 + tol * 60))).map
          (fun c => { Type' := "chapter", Track := track, Chapter := some c,
                      Duration := c.Length })
    ∧ FindContentAroundDuration d tm tol
        = (d.Tracks.map (emitForTrack (tm * 60) (tol * 60))).flatten := by
  refine ⟨?_, rfl⟩
  unfold emitForTrack
  rw [if_neg hout]
  exact filterMap_guard_eq_map_filter
    (fun c => c.Length ≥ tm * 60 - tol * 60 ∧ c.Length ≤ tm * 60 + tol * 60)
    (fun c => ({ Type' := "chapter", Track := track, Chapter := some c,
                 Duration := c.Length } : ContentMatch)) track.Chapters

/-- Witness for C2: a 50-minute track with chapters of 40 min, 50 s and 40 min 50 s
yields exactly the two chapter matches, in chapter order. -/
theorem findContent_chapter_matches_witness :
    emitForTrack (40 * 60) (5 * 60)
        (sampleTrack 1 3000 [sampleChapter 1 2400, sampleChapter 2 50, sampleChapter 3 2450])
      = [{ Type' := "chapter",
           Track := sampleTrack 1 3000
             [sampleChapter 1 2400, sampleChapter 2 50, sampleChapter 3 2450],
           Chapter := some (sampleChapter 1 2400), Duration := 2400 },
         { Type' := "chapter",
           Track := sampleTrack 1 3000
             [sampleChapter 1 2400, sampleChapter 2 50, sampleChapter 3 2450],
           Chapter := some (sampleChapter 3 2450), Duration := 2450 }] := by
  rw [(findContent_chapter_matches
    (sampleDVD [sampleTrack 1 3000
      [sampleChapter 1 2400, sampleChapter 2 50, sampleChapter 3 2450]] 1) 40 5
    (sampleTrack 1 3000 [sampleChapter 1 2400, sampleChapter 2 50, sampleChapter 3 2450])
    (by simp [sampleDVD]) (by norm_num [sampleTrack])).1]
  simp only [sampleTrack, sampleChapter]
  norm_num

/-- Claim C9: every produced match is well-formed: its type tag is `"track"` or
`"chapter"`; its track is one of the disc's tracks; the chapter pointer is
`none` exactly for track-level matches and otherwise points to a chapter of
that track; the duration copies the matched entity's length and lies in the
inclusive window. -/
theorem findContent_match_invariant (d : DVD) (tm tol : ℚ) (m : ContentMatch)
    (hm : m ∈ FindContentAroundDuration d tm tol) :
    (m.Type' = "track" ∨ m.Type' = "chapter")
    ∧ m.Track ∈ d.Tracks
    ∧ (m.Type' = "track" ↔ m.Chapter = none)
    ∧ (∀ c, m.Chapter = some c → c ∈ m.Track.Chapters ∧ m.Duration = c.Length)
    ∧ (m.Chapter = none → m.Duration = m.Track.Length)
    ∧ tm * 60 - tol * 60 ≤ m.Duration ∧ m.Duration ≤ tm * 60 + tol * 60 := by
  rcases mem_findContent.mp hm with ⟨track, htrack, hmx⟩
  unfold emitForTrack at hmx
  split at hmx
  case isTrue h =>
    simp only [List.mem_singleton] at hmx
    subst hmx
    refine ⟨Or.inl rfl, htrack, by simp, ?_, fun _ => rfl, h.1, h.2⟩
    intro c hc
    simp at hc
  case isFalse h =>
    rcases List.mem_filterMap.mp hmx with ⟨c, hcmem, hc⟩
    split at hc
    case isTrue hcw =>
      cases hc
      refine ⟨Or.inr rfl, htrack,
        ⟨fun h => by simp at h, fun h => (Option.some_ne_none c h).elim⟩,
        ?_, ?_, hcw.1, hcw.2⟩
      · intro c' hc'
        cases hc'
        exact ⟨hcmem, rfl⟩
      · intro h'
        cases h'
    case isFalse => cases hc

/-- Witness for C9: the invariant instantiated on a concrete chapter match. -/
theorem findContent_match_invariant_witness :
    ({ Type' := "chapter", Track := sampleTrack 1 3000 [sampleChapter 1 2400],
       Chapter := some (sampleChapter 1 2400), Duration := 2400 } : ContentMatch).Track
        ∈ (sampleDVD [sampleTrack 1 3000 [sampleChapter 1 2400]] 1).Tracks
    ∧ (40 : ℚ) * 60 - 5 * 60
        ≤ ({ Type' := "chapter", Track := sampleTrack 1 3000 [sampleChapter 1 2400],
             Chapter := some (sampleChapter 1 2400), Duration := 2400 } : ContentMatch).Duration := by
  have h := findContent_match_invariant
    (sampleDVD [sampleTrack 1 3000 [sampleChapter 1 2400]] 1) 40 5
    { Type' := "chapter", Track := sampleTrack 1 3000 [sampleChapter 1 2400],
      Chapter := some (sampleChapter 1 2400), Duration := 2400 }
    (by
      simp only [FindContentAroundDuration, emitForTrack, sampleDVD, sampleTrack,
        sampleChapter, List.map, List.flatten, List.filterMap]
      norm_num)
  exact ⟨h.2.1, h.2.2.2.2.2.1⟩

/-- Witness for C7: tolerance −1 minute yields no matches even though the track
and its chapter both sit exactly at the 40-minute target. -/
theorem findContent_negative_tolerance_witness :
    FindContentAroundDuration
      (sampleDVD [sampleTrack 1 2400 [sampleChapter 1 2400]] 1) 40 (-1) = [] :=
  (findContent_negative_tolerance
    (sampleDVD [sampleTrack 1 2400 [sampleChapter 1 2400]] 1) 40 (-1)
    (by norm_num)).1

/-- Claim C10: widening the tolerance can lose a chapter-level match: the wider
window makes the parent track itself match, which suppresses its chapter
matches. -/
theorem findContent_not_monotone :
    ∃ (d : DVD) (tm tol1 tol2 : ℚ) (m : ContentMatch),
      0 ≤ tol1 ∧ tol1 < tol2 ∧ m.Type' = "chapter"
      ∧ m ∈ FindContentAroundDuration d tm tol1
      ∧ m ∉ FindContentAroundDuration d tm tol2
      ∧ ∃ mt ∈ FindContentAroundDuration d tm tol2,
          mt.Type' = "track" ∧ mt.Track = m.Track := by
  have h1 : FindContentAroundDuration
      (sampleDVD [sampleTrack 1 3000 [sampleChapter 1 2400]] 1) 40 0
      = [{ Type' := "chapter", Track := sampleTrack 1 3000 [sampleChapter 1 2400],
           Chapter := some (sampleChapter 1 2400), Duration := 2400 }] := by
    simp only [FindContentAroundDuration, emitForTrack, sampleDVD, sampleTrack,
      sampleChapter, List.map, List.flatten, List.filterMap]
    norm_num
  have h2 : FindContentAroundDuration
      (sampleDVD [sampleTrack 1 3000 [sampleChapter 1 2400]] 1) 40 10
      = [{ Type' := "track", Track := sampleTrack 1 3000 [sampleChapter 1 2400],
           Chapter := none, Duration := 3000 }] := by
    simp only [FindContentAroundDuration, emitForTrack, sampleDVD, sampleTrack,
      sampleChapter, List.map, List.flatten, List.filterMap]
    norm_num
  refine ⟨sampleDVD [sampleTrack 1 3000 [sampleChapter 1 2400]] 1, 40, 0, 10,
    { Type' := "chapter", Track := sampleTrack 1 3000 [sampleChapter 1 2400],
      Chapter := some (sampleChapter 1 2400), Duration := 2400 },
    le_refl 0, by norm_num, rfl, ?_, ?_, ?_⟩
  · rw [h1]
    exact List.mem_singleton.mpr rfl
  · rw [h2]
    intro hmem
    have := List.mem_singleton.mp hmem
    simp [ContentMatch.mk.injEq] at this
  · refine ⟨
      { Type' := "track", Track := sampleTrack 1 3000 [sampleChapter 1 2400],
        Chapter := none, Duration := 3000 }, ?_, rfl, rfl⟩
    rw [h2]
    exact List.mem_singleton.mpr rfl

/-! ## Commutation of the two entity substitutions (C8) -/

/-- The scanner's result does not depend on the fuel once it covers the
input length. -/
theorem replaceAllFuel_fuel_irrel (pat rep : Bytes) :
    ∀ fuel1 fuel2 s, s.length ≤ fuel1 → s.length ≤ fuel2 →
      replaceAllFuel pat rep fuel1 s = replaceAllFuel pat rep fuel2 s := by
  intro fuel1
  induction fuel1 with
  | zero =>
    intro fuel2 s h1 _
    have hs : s = [] := List.eq_nil_of_length_eq_zero (Nat.le_zero.mp h1)
    subst hs
    cases fuel2 <;> rfl
  | succ f ih =>
    intro fuel2 s h1 h2
    cases s with
    | nil => cases fuel2 <;> rfl
    | cons c s =>
      cases fuel2 with
      | zero => exact absurd h2 (by simp)
      | succ f2 =>
        simp only [List.length_cons] at h1 h2
        simp only [replaceAllFuel]
        by_cases hp : pat.isPrefixOf (c :: s)
        · rw [if_pos hp, if_pos hp,
            ih f2 (s.drop (pat.length - 1))
              (by simp only [List.length_drop]; omega)
              (by simp only [List.length_drop]; omega)]
        · rw [if_neg hp, if_neg hp, ih f2 s (by omega) (by omega)]

/-- The boolean `isPrefixOf` agrees with the prefix relation. -/
theorem isPrefixOf_eq_true_iff {l1 l2 : Bytes} : l1.isPrefixOf l2 = true ↔ l1 <+: l2 :=
 List.isPrefixOf_iff_prefix

theorem replaceAll_nil (pat rep : Bytes) : replaceAll pat rep [] = [] := rfl

theorem replaceAll_cons_pos (pat rep : Bytes) (c : Char) (s : Bytes)
    (h : pat <+: (c :: s)) :
    replaceAll pat rep (c :: s) = rep ++ replaceAll pat rep (s.drop (pat.length - 1)) := by
  show replaceAllFuel pat rep (s.length + 1) (c :: s) = _
  simp only [replaceAllFuel]
  rw [if_pos (isPrefixOf_eq_true_iff.mpr h)]
  congr 1
  exact replaceAllFuel_fuel_irrel pat rep s.length (s.drop (pat.length - 1)).length
    (s.drop (pat.length - 1)) (by simp only [List.length_drop]; omega) le_rfl

theorem replaceAll_cons_neg (pat rep : Bytes) (c : Char) (s : Bytes)
    (h : ¬ pat <+: (c :: s)) :
    replaceAll pat rep (c :: s) = c :: replaceAll pat rep s := by
  show replaceAllFuel pat rep (s.length + 1) (c :: s) = c :: replaceAllFuel pat rep s.length s
  simp only [replaceAllFuel]
  rw [if_neg (fun hb => h (isPrefixOf_eq_true_iff.mp hb))]

theorem replaceAll_head_match {pat : Bytes} (rep : Bytes) {s : Bytes}
    (hpat : pat ≠ []) (h : pat <+: s) :
    replaceAll pat rep s = rep ++ replaceAll pat rep (s.drop pat.length) := by
  cases s with
  | nil =>
    exact absurd (List.prefix_nil.mp h) hpat
  | cons c s =>
    rw [replaceAll_cons_pos pat rep c s h]
    cases pat with
    | nil => exact absurd rfl hpat
    | cons p0 pt => rfl

/-- A prefix of an append either sits inside the left part or swallows it. -/
theorem prefix_append_cases {α : Type} {q a b : List α} (h : q <+: a ++ b) :
    q <+: a ∨ a <+: q := by
  induction a generalizing q with
  | nil => exact Or.inr ⟨_, rfl⟩
  | cons x a ih =>
    cases q with
    | nil => exact Or.inl ⟨_, rfl⟩
    | cons y q =>
      rw [List.cons_append] at h
      rcases List.cons_prefix_cons.mp h with ⟨rfl, h2⟩
      rcases ih h2 with h3 | h3
      · exact Or.inl (List.cons_prefix_cons.mpr ⟨rfl, h3⟩)
      · exact Or.inr (List.cons_prefix_cons.mpr ⟨rfl, h3⟩)

/-- If `pat` cannot start at any offset inside `a` (regardless of what
follows `a`), `replaceAll` copies `a` through untouched. -/
theorem replaceAll_append_of_no_internal_start (pat rep : Bytes) (a : Bytes)
    (h : ∀ k, k < a.length → ¬ pat <+: a.drop k ∧ ¬ a.drop k <+: pat) :
    ∀ t, replaceAll pat rep (a ++ t) = a ++ replaceAll pat rep t := by
  induction a with
  | nil => intro t; rfl
  | cons c a ih =>
    intro t
    have h0 := h 0 (by simp)
    rw [List.drop_zero] at h0
    rw [List.cons_append, replaceAll_cons_neg]
    · rw [ih (fun k hk => by
          have := h (k + 1) (by simpa using hk)
          simpa using this) t,
        List.cons_append]
    · intro hp
      rw [← List.cons_append] at hp
      rcases prefix_append_cases hp with h1 | h1
      · exact h0.1 h1
      · exact h0.2 h1

/-- If no nonempty suffix of `other` can begin the replacement text `rep`
(in either direction), then `replaceAll pat rep` never creates a fresh
occurrence of `other` at the front of its output. -/
theorem replaceAll_no_new_front (pat rep other : Bytes)
    (hsuf : ∀ q ∈ other.tails, q ≠ [] → ¬ q <+: rep ∧ ¬ rep <+: q) :
    ∀ u q, q <:+ other → q ≠ [] → q <+: replaceAll pat rep u → q <+: u := by
  have main : ∀ n (u : Bytes), u.length ≤ n →
      ∀ q, q <:+ other → q ≠ [] → q <+: replaceAll pat rep u → q <+: u := by
    intro n
    induction n with
    | zero =>
      intro u hu q _ hqne hqpre
      have : u = [] := List.eq_nil_of_length_eq_zero (Nat.le_zero.mp hu)
      subst this
      rw [replaceAll_nil] at hqpre
      exact absurd (List.prefix_nil.mp hqpre) hqne
    | succ n ih =>
      intro u hu q hqsuf hqne hqpre
      cases u with
      | nil =>
        rw [replaceAll_nil] at hqpre
        exact absurd (List.prefix_nil.mp hqpre) hqne
      | cons c s =>
        by_cases hp : pat <+: (c :: s)
        · rw [replaceAll_cons_pos pat rep c s hp] at hqpre
          rcases prefix_append_cases hqpre with h1 | h1
          · exact absurd h1 (hsuf q ((List.mem_tails _ _).mpr hqsuf) hqne).1
          · exact absurd h1 (hsuf q ((List.mem_tails _ _).mpr hqsuf) hqne).2
        · rw [replaceAll_cons_neg pat rep c s hp] at hqpre
          cases q with
          | nil => exact absurd rfl hqne
          | cons y q =>
            rcases List.cons_prefix_cons.mp hqpre with ⟨rfl, h2⟩
            cases q with
            | nil => exact List.cons_prefix_cons.mpr ⟨rfl, _, rfl⟩
            | cons z q =>
              have hq2suf : (z :: q) <:+ other :=
                List.IsSuffix.trans ⟨[y], rfl⟩ hqsuf
              have hlen : s.length ≤ n := by
                simp only [List.length_cons] at hu
                omega
              have := ih s hlen (z :: q) hq2suf (by simp) h2
              exact List.cons_prefix_cons.mpr ⟨rfl, this⟩
  intro u
  exact main u.length u le_rfl

/-- Two substitutions commute when neither pattern can start inside the
other's pattern or replacement text, and no nonempty suffix of either
pattern can begin the other's replacement text. -/
theorem replaceAll_comm (p1 r1 p2 r2 : Bytes)
    (hp1 : p1 ≠ []) (hp2 : p2 ≠ [])
    (h21 : ∀ k, k < p1.length → ¬ p2 <+: p1.drop k ∧ ¬ p1.drop k <+: p2)
    (h21r : ∀ k, k < r1.length → ¬ p2 <+: r1.drop k ∧ ¬ r1.drop k <+: p2)
    (h12 : ∀ k, k < p2.length → ¬ p1 <+: p2.drop k ∧ ¬ p2.drop k <+: p1)
    (h12r : ∀ k, k < r2.length → ¬ p1 <+: r2.drop k ∧ ¬ r2.drop k <+: p1)
    (hs1 : ∀ q ∈ p1.tails, q ≠ [] → ¬ q <+: r2 ∧ ¬ r2 <+: q)
    (hs2 : ∀ q ∈ p2.tails, q ≠ [] → ¬ q <+: r1 ∧ ¬ r1 <+: q) :
    ∀ s, replaceAll p1 r1 (replaceAll p2 r2 s)
          = replaceAll p2 r2 (replaceAll p1 r1 s) := by
  have main : ∀ n (s : Bytes), s.length ≤ n →
      replaceAll p1 r1 (replaceAll p2 r2 s)
        = replaceAll p2 r2 (replaceAll p1 r1 s) := by
    intro n
    induction n with
    | zero =>
      intro s hs
      have : s = [] := List.eq_nil_of_length_eq_zero (Nat.le_zero.mp hs)
      subst this
      simp only [replaceAll_nil]
    | succ n ih =>
      intro s hs
      by_cases hp1s : p1 <+: s
      · obtain ⟨u, hu⟩ := hp1s
        subst hu
        have hdrop : (p1 ++ u).drop p1.length = u := List.drop_left p1 u
        have hR1 : replaceAll p1 r1 (p1 ++ u) = r1 ++ replaceAll p1 r1 u := by
          rw [replaceAll_head_match r1 hp1 (List.prefix_append p1 u), hdrop]
        have hR2 : replaceAll p2 r2 (p1 ++ u) = p1 ++ replaceAll p2 r2 u :=
          replaceAll_append_of_no_internal_start p2 r2 p1 h21 u
        have hulen : u.length ≤ n := by
          have h1 : 1 ≤ p1.length := List.length_pos.mpr hp1
          simp only [List.length_append] at hs
          omega
        rw [hR1, hR2]
        rw [replaceAll_head_match r1 hp1 (List.prefix_append p1 (replaceAll p2 r2 u)),
          List.drop_left p1 (replaceAll p2 r2 u)]
        rw [replaceAll_append_of_no_internal_start p2 r2 r1 h21r (replaceAll p1 r1 u)]
        rw [ih u hulen]
      · by_cases hp2s : p2 <+: s
        · obtain ⟨u, hu⟩ := hp2s
          subst hu
          have hR2 : replaceAll p2 r2 (p2 ++ u) = r2 ++ replaceAll p2 r2 u := by
            rw [replaceAll_head_match r2 hp2 (List.prefix_append p2 u),
              List.drop_left p2 u]
          have hR1 : replaceAll p1 r1 (p2 ++ u) = p2 ++ replaceAll p1 r1 u :=
            replaceAll_append_of_no_internal_start p1 r1 p2 h12 u
          have hulen : u.length ≤ n := by
            have h1 : 1 ≤ p2.length := List.length_pos.mpr hp2
            simp only [List.length_append] at hs
            omega
          rw [hR1, hR2]
          rw [replaceAll_head_match r2 hp2 (List.prefix_append p2 (replaceAll p1 r1 u)),
            List.drop_left p2 (replaceAll p1 r1 u)]
          rw [replaceAll_append_of_no_internal_start p1 r1 r2 h12r (replaceAll p2 r2 u)]
          rw [ih u hulen]
        · cases s with
          | nil => simp only [replaceAll_nil]
          | cons c t =>
            have hR1 : replaceAll p1 r1 (c :: t) = c :: replaceAll p1 r1 t :=
              replaceAll_cons_neg p1 r1 c t hp1s
            have hR2 : replaceAll p2 r2 (c :: t) = c :: replaceAll p2 r2 t :=
              replaceAll_cons_neg p2 r2 c t hp2s
            have h1 : ¬ p1 <+: (c :: replaceAll p2 r2 t) := by
              rw [← hR2]
              intro hx
              exact hp1s (replaceAll_no_new_front p2 r2 p1 hs1 (c :: t) p1
                (List.suffix_refl p1) hp1 hx)
            have h2 : ¬ p2 <+: (c :: replaceAll p1 r1 t) := by
              rw [← hR1]
              intro hx
              exact hp2s (replaceAll_no_new_front p1 r1 p2 hs2 (c :: t) p2
                (List.suffix_refl p2) hp2 hx)
            have htlen : t.length ≤ n := by
              simp only [List.length_cons] at hs
              omega
            rw [hR1, hR2, replaceAll_cons_neg p1 r1 c (replaceAll p2 r2 t) h1,
              replaceAll_cons_neg p2 r2 c (replaceAll p1 r1 t) h2, ih t htlen]
  intro s
  exact main s.length s le_rfl

/-- Claim C8: the two blind substitutions of `ParseBytes` commute on every input:
the patterns `Pan&Scan` and `&Letterbox` never overlap, and neither
replacement text creates or destroys an occurrence of the other pattern. -/
theorem parseBytes_substitutions_commute :
    ∀ data : Bytes, fixLetterbox (fixPanScan data) = fixPanScan (fixLetterbox data) := by
  intro data
  unfold fixLetterbox fixPanScan
  exact (replaceAll_comm ("Pan&Scan".toList) ("Pan&amp;Scan".toList)
    ("&Letterbox".toList) ("&amp;Letterbox".toList)
    (by decide) (by decide) (by decide) (by decide)
    (by decide) (by decide) (by decide) (by decide) data).symm

/-! ## ParseBytes: entity repair and all-or-nothing decode (C3, C6) -/

/-- Claim C3: `ParseBytes` performs the two literal substitutions (every
`Pan&Scan` → `Pan&amp;Scan`, every `&Letterbox` → `&amp;Letterbox`) before
structural decoding, on every input; in particular the malformed document
`<lsdvd><track><df>Pan&Scan</df></track></lsdvd>` decodes successfully and
the resulting track's `DF` field equals the string `Pan&Scan`. -/
theorem parseBytes_entity_repair :
    (∀ data : Bytes,
      ParseBytes data =
        match xmlUnmarshal (fixLetterbox (fixPanScan data)) with
        | .ok dvd => .ok dvd
        | .error e => .error ("failed to parse XML: " ++ e))
    ∧ (ParseBytes panScanDoc).toOption.map (fun dvd => dvd.Tracks.map Track.DF)
        = some ["Pan&Scan"] :=
  ⟨fun _ => rfl, by decide⟩

/-- Claim C6: decode is all-or-nothing: whenever the structural decode of the
repaired text fails, `ParseBytes` returns the wrapped error and no DVD
value; whenever it returns a DVD, that DVD is exactly the full decode of
the repaired text; and the concrete mismatched-tag document yields no DVD. -/
theorem parseBytes_all_or_nothing :
    (∀ data e, xmlUnmarshal (repairEntities data) = .error e →
        ParseBytes data = .error ("failed to parse XML: " ++ e))
    ∧ (∀ data dvd, ParseBytes data = .ok dvd →
        xmlUnmarshal (repairEntities data) = .ok dvd)
    ∧ (ParseBytes mismatchedDoc).toOption = none := by
  refine ⟨?_, ?_, by decide⟩
  · intro data e h
    unfold ParseBytes
    rw [h]
  · intro data dvd h
    unfold ParseBytes at h
    revert h
    cases xmlUnmarshal (repairEntities data) with
    | ok d => intro h; exact h
    | error e => intro h; simp at h

/-- Witness for C6: the mismatched-tag document produces exactly the wrapped
format error. -/
theorem parseBytes_all_or_nothing_witness :
    ParseBytes mismatchedDoc
      = .error ("failed to parse XML: " ++ "syntax error: mismatched end tag") :=
  parseBytes_all_or_nothing.1 mismatchedDoc "syntax error: mismatched end tag" rfl

end Dvdxml
